import Mathlib

/-!
Shallow embedding of the prepaid time-balance ledger of
src/backend/time-service/time_server.py (class DatabaseManager and the
Stripe payment webhook).

Modelling conventions:
* Timestamps are integers (seconds).  SQLite stores ISO text and the code
  compares them with SQL inequality; chronological order is what matters,
  so an integer clock is faithful.
* Each SQL table is a Lean list in insertion (rowid) order.  SQLite row ids
  are modelled by max-id + 1, matching INTEGER PRIMARY KEY AUTOINCREMENT.
* The SQL query in deduct_time orders by (expires_at ASC, created_at ASC).
  SQLite sorts NULL before every non-NULL value under ASC, and rows that
  tie on the whole key come back in rowid (insertion) order for these
  index-free scans; we model the SELECT as a stable sort (insertion sort)
  by that key with none (NULL) first.
* Python round(duration_seconds / 60) is round-half-to-even of the exact
  rational d/60 (pyRoundDiv60 below); IEEE double division is correctly
  rounded, so this matches the float computation for every |d| < 2^52.
* Database mutations are pure state transformers DB -> DB x result.
-/

inductive CardStatus
  | pending
  | active
  | used
  | expired
  | refunded
deriving DecidableEq, Repr

inductive SessionStatus
  | active
  | completed
  | error
deriving DecidableEq, Repr

/-- Error taxonomy at the HTTP layer of time_server.py; the endpoints map a
none result from the DatabaseManager to a 404 response. -/
inductive LedgerError
  | notFound
  | alreadyEnded
  | duplicateSession
  | insufficientBalance
deriving DecidableEq, Repr

/-- Row of the time_cards table. -/
structure TimeCard where
  id : Nat
  user_id : Nat
  activation_code : String
  total_minutes : Int
  remaining_minutes : Int
  activated_at : Option Int
  expires_at : Option Int
  created_at : Int
  status : CardStatus
  stripe_payment_intent_id : Option String
deriving DecidableEq, Repr

/-- Row of the time_sessions table. -/
structure TimeSession where
  id : Nat
  user_id : Nat
  session_id : String
  room_name : String
  start_time : Int
  end_time : Option Int
  duration_seconds : Option Int
  cost_minutes : Option Int
  status : SessionStatus
deriving DecidableEq, Repr

/-- Row of the payment_history table (written by the Stripe webhook). -/
structure PaymentRecord where
  user_id : Nat
  stripe_payment_intent_id : String
  amount_cents : Int
deriving DecidableEq, Repr

/-- The persistent state: the three mutable tables of the service. -/
structure DB where
  time_cards : List TimeCard
  time_sessions : List TimeSession
  payments : List PaymentRecord
deriving DecidableEq, Repr

def emptyDB : DB := ⟨[], [], []⟩

/-- SQL condition (expires_at IS NULL OR expires_at > datetime('now')). -/
def expiresOk (now : Int) (c : TimeCard) : Bool :=
  match c.expires_at with
  | none => true
  | some e => decide (now < e)

/-- WHERE clause of the SELECT in DatabaseManager.deduct_time:
user_id = ? AND status = 'active' AND remaining_minutes > 0 AND unexpired. -/
def deductEligible (now : Int) (uid : Nat) (c : TimeCard) : Bool :=
  decide (c.user_id = uid) && decide (c.status = CardStatus.active) &&
    decide (0 < c.remaining_minutes) && expiresOk now c

/-- WHERE clause of DatabaseManager.get_user_balance:
user_id = ? AND status = 'active' AND unexpired (no remaining > 0 test). -/
def balanceEligible (now : Int) (uid : Nat) (c : TimeCard) : Bool :=
  decide (c.user_id = uid) && decide (c.status = CardStatus.active) && expiresOk now c

/-- ORDER BY expires_at ASC, created_at ASC, with SQLite's NULLs-first
semantics for ASC. -/
def cardKeyLE (a b : TimeCard) : Bool :=
  match a.expires_at, b.expires_at with
  | none, none => decide (a.created_at ≤ b.created_at)
  | none, some _ => true
  | some _, none => false
  | some x, some y =>
      decide (x < y) || (decide (x = y) && decide (a.created_at ≤ b.created_at))

/-- The sort key as a relation. -/
def cardLE (a b : TimeCard) : Prop := cardKeyLE a b = true

instance : DecidableRel cardLE := fun a b => by
  unfold cardLE; infer_instance

/-- The ordered eligible-card list fetched at the top of deduct_time,
stable-sorted by (expires_at ASC nulls-first, created_at ASC). -/
def selCards (db : DB) (now : Int) (uid : Nat) : List TimeCard :=
  List.insertionSort cardLE (db.time_cards.filter (deductEligible now uid))

/-- UPDATE time_cards SET remaining_minutes = ?, status = ? WHERE id = ?. -/
def updateCardById (cards : List TimeCard) (cid : Nat) (bal : Int)
    (st : CardStatus) : List TimeCard :=
  cards.map (fun c =>
    if c.id = cid then { c with remaining_minutes := bal, status := st } else c)

/-- The for-loop of deduct_time: walks the snapshot (id, remaining) pairs,
breaking once nothing is left to deduct, covering from the current card if it
suffices (flipping it to used exactly when it hits 0) and otherwise draining
it to 0 with status used. -/
def deductLoop (cards : List TimeCard) (todo : List (Nat × Int))
    (need : Int) : List TimeCard × Int :=
  match todo with
  | [] => (cards, need)
  | (cid, cmin) :: rest =>
    if need ≤ 0 then (cards, need)
    else if need ≤ cmin then
      deductLoop
        (updateCardById cards cid (cmin - need)
          (if cmin - need = 0 then CardStatus.used else CardStatus.active))
        rest 0
    else
      deductLoop (updateCardById cards cid 0 CardStatus.used) rest (need - cmin)

/-- DatabaseManager.deduct_time: select the eligible cards soonest-expiring
first, walk them deducting, commit, and report whether the request was fully
covered.  Note: the mutations are committed even when the request was not
covered. -/
def deduct_time (db : DB) (now : Int) (uid : Nat) (minutes : Int) :
    DB × Bool :=
  let todo := (selCards db now uid).map (fun c => (c.id, c.remaining_minutes))
  let r := deductLoop db.time_cards todo minutes
  ({ db with time_cards := r.1 }, decide (r.2 = 0))

/-- timedelta(days=365) in seconds. -/
def cardValiditySeconds : Int := 365 * 86400

/-- Fresh rowid for an INSERT into time_cards. -/
def nextCardId (db : DB) : Nat :=
  db.time_cards.foldr (fun c m => max c.id m) 0 + 1

/-- Fresh rowid for an INSERT into time_sessions. -/
def nextSessionId (db : DB) : Nat :=
  db.time_sessions.foldr (fun s m => max s.id m) 0 + 1

/-- DatabaseManager.create_time_card: INSERT a pending card whose
remaining_minutes equals total_minutes and whose expiry is one year from
creation.  The activation code is the output of generate_activation_code,
taken here as a parameter (its generator loops until the code is unused). -/
def create_time_card (db : DB) (now : Int) (uid : Nat) (total : Int)
    (code : String) (pid : Option String) : DB × TimeCard :=
  let c : TimeCard :=
    { id := nextCardId db
      user_id := uid
      activation_code := code
      total_minutes := total
      remaining_minutes := total
      activated_at := none
      expires_at := some (now + cardValiditySeconds)
      created_at := now
      status := CardStatus.pending
      stripe_payment_intent_id := pid }
  ({ db with time_cards := db.time_cards ++ [c] }, c)

/-- SELECT * FROM time_cards WHERE activation_code = ? (first row). -/
def get_time_card_by_code (db : DB) (code : String) : Option TimeCard :=
  db.time_cards.find? (fun c => decide (c.activation_code = code))

/-- DatabaseManager.activate_time_card: guard on a pending card carrying the
code, then UPDATE every row with that activation_code to user_id = uid,
activated_at = now, status = 'active', and return the card looked up again by
code.  Returns none (404 at the endpoint) when no pending card matches. -/
def activate_time_card (db : DB) (now : Int) (code : String) (uid : Nat) :
    DB × Option TimeCard :=
  match db.time_cards.find?
      (fun c => decide (c.activation_code = code ∧ c.status = CardStatus.pending)) with
  | none => (db, none)
  | some _ =>
    let cards := db.time_cards.map (fun c =>
      if c.activation_code = code then
        { c with user_id := uid, activated_at := some now,
                 status := CardStatus.active }
      else c)
    let db' := { db with time_cards := cards }
    (db', get_time_card_by_code db' code)

/-- Aggregate returned by DatabaseManager.get_user_balance (total_hours, a
float for display only, is omitted). -/
structure BalanceInfo where
  total_minutes : Int
  active_cards : Nat
  next_expiration : Option Int
deriving DecidableEq, Repr

/-- DatabaseManager.get_user_balance: SUM(remaining_minutes), COUNT(*) and
MIN(expires_at) (SQL MIN skips NULLs) over the active unexpired cards. -/
def get_user_balance (db : DB) (now : Int) (uid : Nat) : BalanceInfo :=
  let rows := db.time_cards.filter (balanceEligible now uid)
  { total_minutes := (rows.map TimeCard.remaining_minutes).sum
    active_cards := rows.length
    next_expiration := (rows.filterMap TimeCard.expires_at).min? }

/-- DatabaseManager.start_time_session: unconditionally INSERT a fresh
active session row; there is no duplicate-session_id check in the code. -/
def start_time_session (db : DB) (now : Int) (uid : Nat) (sid room : String) :
    DB × TimeSession :=
  let s : TimeSession :=
    { id := nextSessionId db
      user_id := uid
      session_id := sid
      room_name := room
      start_time := now
      end_time := none
      duration_seconds := none
      cost_minutes := none
      status := SessionStatus.active }
  ({ db with time_sessions := db.time_sessions ++ [s] }, s)

/-- Round-half-to-even of the exact rational d/60, the value of Python
round(d / 60) for every |d| < 2^52. -/
def pyRoundDiv60 (d : Int) : Int :=
  let q := Int.ediv d 60
  let r := Int.emod d 60
  if r < 30 then q
  else if 30 < r then q + 1
  else if Int.emod q 2 = 0 then q else q + 1

/-- UPDATE time_sessions SET end_time, duration_seconds, cost_minutes,
status = 'completed' WHERE session_id = ?. -/
def sealSessions (db : DB) (now : Int) (sid : String) (d cost : Int) : DB :=
  { db with time_sessions := db.time_sessions.map (fun s =>
      if s.session_id = sid then
        { s with end_time := some now, duration_seconds := some d,
                 cost_minutes := some cost, status := SessionStatus.completed }
      else s) }

/-- UPDATE time_sessions SET status = 'error' WHERE session_id = ?. -/
def errorSessions (db : DB) (sid : String) : DB :=
  { db with time_sessions := db.time_sessions.map (fun s =>
      if s.session_id = sid then { s with status := SessionStatus.error }
      else s) }

/-- DatabaseManager.end_time_session: cost = max(1, round(d/60)); look up the
active session by session_id (none when absent, i.e. 404), seal every row
with that session_id as completed, deduct the cost from the owner, and
downgrade the rows to 'error' when the deduction was not covered. -/
def end_time_session (db : DB) (now : Int) (sid : String) (d : Int) :
    DB × Option TimeSession :=
  let cost := max 1 (pyRoundDiv60 d)
  match db.time_sessions.find?
      (fun s => decide (s.session_id = sid ∧ s.status = SessionStatus.active)) with
  | none => (db, none)
  | some srow =>
    let db1 := sealSessions db now sid d cost
    let r := deduct_time db1 now srow.user_id cost
    let db3 := if r.2 then r.1 else errorSessions r.1 sid
    (db3,
      some { id := srow.id
             user_id := srow.user_id
             session_id := srow.session_id
             room_name := srow.room_name
             start_time := srow.start_time
             end_time := some now
             duration_seconds := some d
             cost_minutes := some cost
             status := if r.2 then SessionStatus.completed
                       else SessionStatus.error })

/-- The POST /time/session/end endpoint maps a none from end_time_session to
a 404 "Session not found" response, i.e. a not-found error. -/
def endSessionResult (db : DB) (now : Int) (sid : String) (d : Int) :
    DB × Except LedgerError TimeSession :=
  match end_time_session db now sid d with
  | (db', some s) => (db', Except.ok s)
  | (db', none) => (db', Except.error LedgerError.notFound)

/-- The payment_intent.succeeded branch of the /webhooks/stripe handler:
UPDATE every card whose stripe_payment_intent_id matches to status 'active'
with activated_at = now — with no guard on the current status — and append a
payment_history row. -/
def stripe_webhook_payment_succeeded (db : DB) (now : Int) (pid : String)
    (uid : Nat) (amount : Int) : DB :=
  { db with
    time_cards := db.time_cards.map (fun c =>
      if c.stripe_payment_intent_id = some pid then
        { c with status := CardStatus.active, activated_at := some now }
      else c)
    payments := db.payments ++ [⟨uid, pid, amount⟩] }

/-- One client-visible ledger operation together with its parameters. -/
inductive Op
  | create (uid : Nat) (total : Int) (code : String) (pid : Option String)
  | activate (code : String) (uid : Nat)
  | deduct (uid : Nat) (minutes : Int)
  | webhook (pid : String) (uid : Nat) (amount : Int)
  | startSession (uid : Nat) (sid room : String)
  | endSession (sid : String) (d : Int)
deriving DecidableEq, Repr

/-- State transition of one operation at time t (return values projected
away). -/
def step (db : DB) (t : Int) : Op → DB
  | Op.create uid total code pid => (create_time_card db t uid total code pid).1
  | Op.activate code uid => (activate_time_card db t code uid).1
  | Op.deduct uid minutes => (deduct_time db t uid minutes).1
  | Op.webhook pid uid amount => stripe_webhook_payment_succeeded db t pid uid amount
  | Op.startSession uid sid room => (start_time_session db t uid sid room).1
  | Op.endSession sid d => (end_time_session db t sid d).1

/-- Environment guarantees the surrounding code provides for an operation:
a create receives a package worth a non-negative number of minutes
(hours * 60 + bonus_minutes from the pricing tiers) and an activation code
that generate_activation_code certified unused. -/
def okOp (db : DB) : Op → Bool
  | Op.create _ total code _ =>
      decide (0 ≤ total) &&
        db.time_cards.all (fun c => decide (c.activation_code ≠ code))
  | _ => true

/-- okOp holding along a whole timed trace. -/
def okOps (db : DB) : List (Int × Op) → Bool
  | [] => true
  | (t, op) :: rest => okOp db op && okOps (step db t op) rest

/-- Run a timed trace from the empty database. -/
def run (ops : List (Int × Op)) : DB :=
  ops.foldl (fun db p => step db p.1 p.2) emptyDB

/-- remaining_minutes of the card with a given rowid, when present. -/
def cardRem (db : DB) (i : Nat) : Option Int :=
  (db.time_cards.find? (fun c => decide (c.id = i))).map TimeCard.remaining_minutes

/-- Row ids of the card table are distinct (SQLite primary key). -/
def idsNodup (db : DB) : Prop :=
  (db.time_cards.map TimeCard.id).Nodup

/-- Activation codes are distinct (UNIQUE column, enforced by the
generate-and-check loop of generate_activation_code). -/
def codesNodup (db : DB) : Prop :=
  (db.time_cards.map TimeCard.activation_code).Nodup

/-- Per-card balance bounds. -/
def WfCard (c : TimeCard) : Prop :=
  0 ≤ c.remaining_minutes ∧ c.remaining_minutes ≤ c.total_minutes

/-- Invariant of every database reachable through the service's own
operations. -/
def Wf (db : DB) : Prop :=
  (∀ c ∈ db.time_cards, WfCard c) ∧ idsNodup db ∧ codesNodup db

lemma Wf_emptyDB : Wf emptyDB := by
  constructor
  · intro c hc; cases hc
  · exact ⟨List.nodup_nil, List.nodup_nil⟩

/-! ### Helper lemmas: pointwise evolution of the card table under deduct -/

/-- Pointwise evolution of a card during the deduct loop: either untouched,
or an update that only lowered remaining_minutes (not below 0), moved status
within the active/used pair, kept every other field, and targeted an id from
the given update set. -/
def EvolveIn (S : List Nat) (c c' : TimeCard) : Prop :=
  c' = c ∨
    (c.id ∈ S ∧ c'.id = c.id ∧ c'.user_id = c.user_id ∧
     c'.activation_code = c.activation_code ∧
     c'.total_minutes = c.total_minutes ∧
     c'.activated_at = c.activated_at ∧ c'.expires_at = c.expires_at ∧
     c'.created_at = c.created_at ∧
     c'.stripe_payment_intent_id = c.stripe_payment_intent_id ∧
     0 ≤ c'.remaining_minutes ∧ c'.remaining_minutes ≤ c.remaining_minutes ∧
     (c'.status = CardStatus.active ∨ c'.status = CardStatus.used))

lemma EvolveIn.mono {S T : List Nat} (hST : ∀ i ∈ S, i ∈ T) {c c' : TimeCard}
    (h : EvolveIn S c c') : EvolveIn T c c' := by
  rcases h with rfl | ⟨hm, h⟩
  · exact Or.inl rfl
  · exact Or.inr ⟨hST _ hm, h⟩

lemma EvolveIn.trans {S : List Nat} {a b c : TimeCard}
    (hab : EvolveIn S a b) (hbc : EvolveIn S b c) : EvolveIn S a c := by
  rcases hab with rfl | ⟨h1, h2, h3, h4, h5, h6, h7, h8, h9, h10, h11, h12⟩
  · exact hbc
  · rcases hbc with rfl | ⟨k1, k2, k3, k4, k5, k6, k7, k8, k9, k10, k11, k12⟩
    · exact Or.inr ⟨h1, h2, h3, h4, h5, h6, h7, h8, h9, h10, h11, h12⟩
    · exact Or.inr ⟨h1, k2.trans h2, k3.trans h3, k4.trans h4, k5.trans h5,
        k6.trans h6, k7.trans h7, k8.trans h8, k9.trans h9, k10,
        le_trans k11 h11, k12⟩

lemma forall₂_refl_of {α : Type} {R : α → α → Prop} (h : ∀ a, R a a) :
    ∀ l : List α, List.Forall₂ R l l
  | [] => List.Forall₂.nil
  | a :: l => List.Forall₂.cons (h a) (forall₂_refl_of h l)

lemma evolveIn_refl (S : List Nat) (c : TimeCard) : EvolveIn S c c :=
  Or.inl rfl

lemma forall₂_trans_of {α : Type} {R : α → α → Prop}
    (htrans : ∀ a b c, R a b → R b c → R a c) :
    ∀ {l m n : List α}, List.Forall₂ R l m → List.Forall₂ R m n →
      List.Forall₂ R l n := by
  intro l m n h1
  induction h1 generalizing n with
  | nil => intro h2; cases h2; exact List.Forall₂.nil
  | cons hab _ ih =>
      intro h2
      cases h2 with
      | cons hbc h' => exact List.Forall₂.cons (htrans _ _ _ hab hbc) (ih h')

lemma forall₂_imp_mem {α β : Type} {R S : α → β → Prop} :
    ∀ {l : List α} {m : List β}, List.Forall₂ R l m →
      (∀ a ∈ l, ∀ b, R a b → S a b) → List.Forall₂ S l m := by
  intro l m hf
  induction hf with
  | nil => intro _; exact List.Forall₂.nil
  | cons hab _ ih =>
      intro h
      exact List.Forall₂.cons (h _ (by simp) _ hab)
        (ih fun a ha b hr => h a (by simp [ha]) b hr)

lemma updateCardById_evolve {cards : List TimeCard} {cid : Nat} {bal : Int}
    {st : CardStatus}
    (hbal : 0 ≤ bal)
    (hle : ∀ c ∈ cards, c.id = cid → bal ≤ c.remaining_minutes)
    (hst : st = CardStatus.active ∨ st = CardStatus.used) :
    List.Forall₂ (EvolveIn [cid]) cards (updateCardById cards cid bal st) := by
  induction cards with
  | nil => exact List.Forall₂.nil
  | cons c cs ih =>
      have hhead : EvolveIn [cid] c
          (if c.id = cid then
            { c with remaining_minutes := bal, status := st } else c) := by
        by_cases h : c.id = cid
        · rw [if_pos h]
          exact Or.inr ⟨by simp [h], rfl, rfl, rfl, rfl, rfl, rfl, rfl, rfl,
            hbal, hle c (by simp) h, hst⟩
        · rw [if_neg h]; exact Or.inl rfl
      simpa [updateCardById] using
        List.Forall₂.cons hhead (ih fun x hx hxid => hle x (by simp [hx]) hxid)

lemma deductLoop_evolve :
    ∀ (todo : List (Nat × Int)) (need : Int) (cards : List TimeCard),
      (∀ p ∈ todo, ∀ c ∈ cards, c.id = p.1 → c.remaining_minutes = p.2) →
      (∀ p ∈ todo, 0 < p.2) →
      (todo.map Prod.fst).Nodup →
      List.Forall₂ (EvolveIn (todo.map Prod.fst)) cards
        (deductLoop cards todo need).1 := by
  intro todo
  induction todo with
  | nil =>
      intro need cards _ _ _
      simpa [deductLoop] using forall₂_refl_of (evolveIn_refl []) cards
  | cons p rest ih =>
      obtain ⟨cid, cmin⟩ := p
      intro need cards hsnap hpos hnd
      have hsub : ∀ i ∈ (rest.map Prod.fst), i ∈ ((cid, cmin) :: rest).map Prod.fst := by
        intro i hi; simp only [List.map_cons]; exact List.mem_cons_of_mem _ hi
      have hcidmem : cid ∈ ((cid, cmin) :: rest).map Prod.fst := by simp
      have hcidnotin : cid ∉ rest.map Prod.fst := by
        have := hnd
        simp only [List.map_cons, List.nodup_cons] at this
        exact this.1
      by_cases h0 : need ≤ 0
      · simp only [deductLoop, if_pos h0]
        exact forall₂_refl_of (evolveIn_refl _) cards
      · have hupd : ∀ (bal : Int) (st : CardStatus), 0 ≤ bal →
            (∀ c ∈ cards, c.id = cid → bal ≤ c.remaining_minutes) →
            (st = CardStatus.active ∨ st = CardStatus.used) →
            ∀ need' : Int,
            (∀ q ∈ rest, 0 < q.2) →
            List.Forall₂ (EvolveIn (((cid, cmin) :: rest).map Prod.fst)) cards
              (deductLoop (updateCardById cards cid bal st) rest need').1 := by
          intro bal st hbal hle hst need' hpos'
          have hstep := updateCardById_evolve hbal hle hst
          have hsnap' : ∀ q ∈ rest, ∀ c' ∈ updateCardById cards cid bal st,
              c'.id = q.1 → c'.remaining_minutes = q.2 := by
            intro q hq c' hc' hid
            obtain ⟨c, hc, rfl⟩ := List.mem_map.mp (by simpa [updateCardById] using hc')
            by_cases h : c.id = cid
            · exfalso
              rw [if_pos h] at hid
              simp only at hid
              exact hcidnotin (by
                have : cid = q.1 := by rw [← h]; exact hid
                rw [this]; exact List.mem_map_of_mem Prod.fst hq)
            · rw [if_neg h] at hid ⊢
              exact hsnap q (List.mem_cons_of_mem _ hq) c hc hid
          have hrest := ih need' (updateCardById cards cid bal st) hsnap' hpos'
            (by simpa [List.map_cons, List.nodup_cons] using hnd.of_cons)
          have h1 : List.Forall₂ (EvolveIn (((cid, cmin) :: rest).map Prod.fst))
              cards (updateCardById cards cid bal st) :=
            hstep.imp fun a b hab =>
              hab.mono (by intro i hi; simp at hi; rw [hi]; exact hcidmem)
          have h2 : List.Forall₂ (EvolveIn (((cid, cmin) :: rest).map Prod.fst))
              (updateCardById cards cid bal st)
              (deductLoop (updateCardById cards cid bal st) rest need').1 :=
            hrest.imp fun a b hab => hab.mono hsub
          exact forall₂_trans_of (fun a b c hab hbc => hab.trans hbc) h1 h2
        by_cases hcover : need ≤ cmin
        · simp only [deductLoop, if_neg h0, if_pos hcover]
          refine hupd (cmin - need) _ (by omega) ?_ ?_ 0 ?_
          · intro c hc hid
            have := hsnap (cid, cmin) (by simp) c hc hid
            omega
          · by_cases hz : cmin - need = 0 <;> simp [hz]
          · intro q hq; exact hpos q (List.mem_cons_of_mem _ hq)
        · simp only [deductLoop, if_neg h0, if_neg hcover]
          refine hupd 0 CardStatus.used le_rfl ?_ (Or.inr rfl) (need - cmin) ?_
          · intro c hc hid
            have := hsnap (cid, cmin) (by simp) c hc hid
            have := hpos (cid, cmin) (by simp)
            omega
          · intro q hq; exact hpos q (List.mem_cons_of_mem _ hq)

lemma deductEligible_iff (now : Int) (uid : Nat) (c : TimeCard) :
    deductEligible now uid c = true ↔
      c.user_id = uid ∧ c.status = CardStatus.active ∧
        0 < c.remaining_minutes ∧ expiresOk now c = true := by
  simp [deductEligible, Bool.and_eq_true, decide_eq_true_eq, and_assoc]

lemma balanceEligible_iff (now : Int) (uid : Nat) (c : TimeCard) :
    balanceEligible now uid c = true ↔
      c.user_id = uid ∧ c.status = CardStatus.active ∧ expiresOk now c = true := by
  simp [balanceEligible, Bool.and_eq_true, decide_eq_true_eq, and_assoc]

/-- Pointwise evolution of a card over one whole deduct_time call: either
untouched, or the card was eligible for the deduction and only its
remaining_minutes (downward, not below 0) and its status (within
active/used) changed. -/
def DeductEvolve (now : Int) (uid : Nat) (c c' : TimeCard) : Prop :=
  c' = c ∨
    (deductEligible now uid c = true ∧ c'.id = c.id ∧ c'.user_id = c.user_id ∧
     c'.activation_code = c.activation_code ∧
     c'.total_minutes = c.total_minutes ∧
     c'.activated_at = c.activated_at ∧ c'.expires_at = c.expires_at ∧
     c'.created_at = c.created_at ∧
     c'.stripe_payment_intent_id = c.stripe_payment_intent_id ∧
     0 ≤ c'.remaining_minutes ∧ c'.remaining_minutes ≤ c.remaining_minutes ∧
     (c'.status = CardStatus.active ∨ c'.status = CardStatus.used))

lemma selCards_perm (db : DB) (now : Int) (uid : Nat) :
    (selCards db now uid).Perm (db.time_cards.filter (deductEligible now uid)) :=
  List.perm_insertionSort _ _

lemma selCards_mem {db : DB} {now : Int} {uid : Nat} {e : TimeCard}
    (he : e ∈ selCards db now uid) :
    e ∈ db.time_cards ∧ deductEligible now uid e = true := by
  have h := (selCards_perm db now uid).mem_iff.mp he
  exact ⟨(List.mem_filter.mp h).1, (List.mem_filter.mp h).2⟩

lemma selCards_ids_nodup {db : DB} {now : Int} {uid : Nat}
    (hids : idsNodup db) :
    ((selCards db now uid).map TimeCard.id).Nodup := by
  have hsub : ((db.time_cards.filter (deductEligible now uid)).map
      TimeCard.id).Sublist (db.time_cards.map TimeCard.id) :=
    List.Sublist.map _ (List.filter_sublist _)
  have hfil : ((db.time_cards.filter (deductEligible now uid)).map
      TimeCard.id).Nodup := hsub.nodup hids
  exact (((selCards_perm db now uid).map TimeCard.id).symm).nodup hfil

lemma deduct_time_evolve (db : DB) (now : Int) (uid : Nat) (m : Int)
    (hids : idsNodup db) :
    (deduct_time db now uid m).1.time_sessions = db.time_sessions ∧
    (deduct_time db now uid m).1.payments = db.payments ∧
    List.Forall₂ (DeductEvolve now uid) db.time_cards
      (deduct_time db now uid m).1.time_cards := by
  refine ⟨rfl, rfl, ?_⟩
  have hinj := List.inj_on_of_nodup_map hids
  have hsnap : ∀ p ∈ (selCards db now uid).map
      (fun c => (c.id, c.remaining_minutes)),
      ∀ c ∈ db.time_cards, c.id = p.1 → c.remaining_minutes = p.2 := by
    intro p hp c hc hid
    obtain ⟨e, he, rfl⟩ := List.mem_map.mp hp
    have hce : c = e := hinj hc (selCards_mem he).1 hid
    rw [hce]
  have hpos : ∀ p ∈ (selCards db now uid).map
      (fun c => (c.id, c.remaining_minutes)), 0 < p.2 := by
    intro p hp
    obtain ⟨e, he, rfl⟩ := List.mem_map.mp hp
    exact ((deductEligible_iff now uid e).mp (selCards_mem he).2).2.2.1
  have hnd : (((selCards db now uid).map
      (fun c => (c.id, c.remaining_minutes))).map Prod.fst).Nodup := by
    have : ((selCards db now uid).map
        (fun c => (c.id, c.remaining_minutes))).map Prod.fst =
        (selCards db now uid).map TimeCard.id := by
      simp [List.map_map, Function.comp]
    rw [this]
    exact selCards_ids_nodup hids
  have hloop := deductLoop_evolve _ m db.time_cards hsnap hpos hnd
  have hgoal : (deduct_time db now uid m).1.time_cards =
      (deductLoop db.time_cards ((selCards db now uid).map
        (fun c => (c.id, c.remaining_minutes))) m).1 := rfl
  rw [hgoal]
  refine forall₂_imp_mem hloop ?_
  intro c hc c' hrel
  rcases hrel with rfl | ⟨hmem, hrest⟩
  · exact Or.inl rfl
  · refine Or.inr ⟨?_, hrest⟩
    have : c.id ∈ (selCards db now uid).map TimeCard.id := by
      have heq : ((selCards db now uid).map
          (fun c => (c.id, c.remaining_minutes))).map Prod.fst =
          (selCards db now uid).map TimeCard.id := by
        simp [List.map_map, Function.comp]
      rw [← heq]
      exact hmem
    obtain ⟨e, he, heid⟩ := List.mem_map.mp this
    have hce : e = c := hinj (selCards_mem he).1 hc heid
    rw [← hce]
    exact (selCards_mem he).2

/-! ### Helper lemmas: looking cards up by id, and per-operation card shapes -/

/-- remaining_minutes of the first card in a list with the given id. -/
def cardRemList (l : List TimeCard) (i : Nat) : Option Int :=
  (l.find? (fun c => decide (c.id = i))).map TimeCard.remaining_minutes

lemma cardRem_eq (db : DB) (i : Nat) : cardRem db i = cardRemList db.time_cards i := rfl

lemma cardRemList_cons (a : TimeCard) (l : List TimeCard) (i : Nat) :
    cardRemList (a :: l) i =
      if a.id = i then some a.remaining_minutes else cardRemList l i := by
  by_cases h : a.id = i <;> simp [cardRemList, List.find?_cons, h]

lemma cardRemList_map (f : TimeCard → TimeCard)
    (hid : ∀ c, (f c).id = c.id)
    (hrem : ∀ c, (f c).remaining_minutes = c.remaining_minutes) :
    ∀ (l : List TimeCard) (i : Nat), cardRemList (l.map f) i = cardRemList l i := by
  intro l i
  induction l with
  | nil => rfl
  | cons a l ih =>
      rw [List.map_cons, cardRemList_cons, cardRemList_cons, hid, hrem, ih]

lemma cardRemList_append_of_some {l l' : List TimeCard} {i : Nat} {r : Int}
    (h : cardRemList l i = some r) : cardRemList (l ++ l') i = some r := by
  unfold cardRemList at h ⊢
  rw [List.find?_append]
  cases hf : l.find? (fun c => decide (c.id = i)) with
  | none => rw [hf] at h; simp at h
  | some c => rw [hf] at h; simpa using h

lemma cardRemList_append_new {l : List TimeCard} {c : TimeCard}
    (h : ∀ x ∈ l, x.id ≠ c.id) :
    cardRemList (l ++ [c]) c.id = some c.remaining_minutes := by
  unfold cardRemList
  rw [List.find?_append]
  have hnone : l.find? (fun x => decide (x.id = c.id)) = none :=
    List.find?_eq_none.mpr (fun x hx => by simpa using h x hx)
  rw [hnone]
  simp [List.find?_cons]

lemma forall₂_getElem? {α β : Type} {R : α → β → Prop} :
    ∀ {l : List α} {m : List β}, List.Forall₂ R l m →
      ∀ (k : Nat) (a : α) (b : β), l[k]? = some a → m[k]? = some b → R a b := by
  intro l m hf
  induction hf with
  | nil => intro k a b h; simp at h
  | cons hab _ ih =>
      intro k a b ha hb
      cases k with
      | zero =>
          simp only [List.getElem?_cons_zero, Option.some_inj] at ha hb
          rw [← ha, ← hb]; exact hab
      | succ k =>
          simp only [List.getElem?_cons_succ] at ha hb
          exact ih k a b ha hb

lemma forall₂_cardRemList_le {R : TimeCard → TimeCard → Prop}
    (hid : ∀ a b, R a b → b.id = a.id)
    (hle : ∀ a b, R a b → b.remaining_minutes ≤ a.remaining_minutes) :
    ∀ {l m : List TimeCard}, List.Forall₂ R l m →
      ∀ (i : Nat) (r r' : Int), cardRemList l i = some r →
        cardRemList m i = some r' → r' ≤ r := by
  intro l m hf
  induction hf with
  | nil => intro i r r' h; simp [cardRemList] at h
  | cons hab _ ih =>
      intro i r r' hr hr'
      rename_i a b l' m' _
      rw [cardRemList_cons] at hr hr'
      by_cases h : a.id = i
      · rw [if_pos h] at hr
        rw [if_pos (by rw [hid a b hab]; exact h)] at hr'
        have h1 : a.remaining_minutes = r := by simpa using hr
        have h2 : b.remaining_minutes = r' := by simpa using hr'
        rw [← h1, ← h2]
        exact hle a b hab
      · rw [if_neg h] at hr
        rw [if_neg (by rw [hid a b hab]; exact h)] at hr'
        exact ih i r r' hr hr'

lemma deductEvolve_id {now : Int} {uid : Nat} {a b : TimeCard}
    (h : DeductEvolve now uid a b) : b.id = a.id := by
  rcases h with rfl | h; exacts [rfl, h.2.1]

lemma deductEvolve_rem_le {now : Int} {uid : Nat} {a b : TimeCard}
    (h : DeductEvolve now uid a b) :
    b.remaining_minutes ≤ a.remaining_minutes := by
  rcases h with rfl | h; exacts [le_rfl, h.2.2.2.2.2.2.2.2.2.2.1]

lemma deductEvolve_code {now : Int} {uid : Nat} {a b : TimeCard}
    (h : DeductEvolve now uid a b) : b.activation_code = a.activation_code := by
  rcases h with rfl | h; exacts [rfl, h.2.2.2.1]

lemma deductEvolve_total {now : Int} {uid : Nat} {a b : TimeCard}
    (h : DeductEvolve now uid a b) : b.total_minutes = a.total_minutes := by
  rcases h with rfl | h; exacts [rfl, h.2.2.2.2.1]

lemma deductEvolve_wf {now : Int} {uid : Nat} {a b : TimeCard}
    (h : DeductEvolve now uid a b) (ha : WfCard a) : WfCard b := by
  rcases h with rfl | h
  · exact ha
  · exact ⟨h.2.2.2.2.2.2.2.2.2.1,
      by rw [h.2.2.2.2.1]
         exact le_trans h.2.2.2.2.2.2.2.2.2.2.1 ha.2⟩

/-- The card table of activate_time_card is either untouched (no pending
match) or the UPDATE applied to every row carrying the code. -/
lemma activate_cards (db : DB) (now : Int) (code : String) (uid : Nat) :
    (activate_time_card db now code uid).1.time_cards = db.time_cards ∨
    (activate_time_card db now code uid).1.time_cards = db.time_cards.map
      (fun c => if c.activation_code = code then
        { c with user_id := uid, activated_at := some now,
                 status := CardStatus.active } else c) := by
  unfold activate_time_card
  cases db.time_cards.find?
      (fun c => decide (c.activation_code = code ∧ c.status = CardStatus.pending)) with
  | none => exact Or.inl rfl
  | some c => exact Or.inr rfl

/-- The card table after end_time_session is either untouched (no active
session found) or exactly the card table of a deduct_time call on a state
with the same card table. -/
lemma end_time_session_cards (db : DB) (now : Int) (sid : String) (d : Int) :
    (end_time_session db now sid d).1.time_cards = db.time_cards ∨
    ∃ (uid : Nat) (db1 : DB), db1.time_cards = db.time_cards ∧
      (end_time_session db now sid d).1.time_cards =
        (deduct_time db1 now uid (max 1 (pyRoundDiv60 d))).1.time_cards := by
  unfold end_time_session
  cases db.time_sessions.find?
      (fun s => decide (s.session_id = sid ∧ s.status = SessionStatus.active)) with
  | none => exact Or.inl rfl
  | some srow =>
      refine Or.inr ⟨srow.user_id,
        sealSessions db now sid d (max 1 (pyRoundDiv60 d)), rfl, ?_⟩
      simp only
      by_cases hsucc :
          (deduct_time (sealSessions db now sid d (max 1 (pyRoundDiv60 d)))
            now srow.user_id (max 1 (pyRoundDiv60 d))).2 <;>
        simp [hsucc, errorSessions]

lemma map_proj_eq {β : Type} (f : TimeCard → TimeCard) (g : TimeCard → β)
    (h : ∀ c, g (f c) = g c) (l : List TimeCard) :
    (l.map f).map g = l.map g := by
  rw [List.map_map]
  exact List.map_congr_left (fun a _ => h a)

lemma forall₂_proj_eq {β : Type} {R : TimeCard → TimeCard → Prop}
    (g : TimeCard → β) (h : ∀ a b, R a b → g b = g a) :
    ∀ {l m : List TimeCard}, List.Forall₂ R l m → m.map g = l.map g := by
  intro l m hf
  induction hf with
  | nil => rfl
  | cons hab _ ih => simp [ih, h _ _ hab]

lemma id_le_foldr_max :
    ∀ (l : List TimeCard), ∀ c ∈ l, c.id ≤ l.foldr (fun c m => max c.id m) 0 := by
  intro l
  induction l with
  | nil => intro c hc; cases hc
  | cons a l ih =>
      intro c hc
      rcases List.mem_cons.mp hc with rfl | h
      · exact le_max_left _ _
      · exact le_trans (ih c h) (le_max_right _ _)

lemma card_id_lt_nextCardId (db : DB) : ∀ c ∈ db.time_cards, c.id < nextCardId db := by
  intro c hc
  have := id_le_foldr_max db.time_cards c hc
  unfold nextCardId
  omega

lemma nodup_append_singleton {α : Type} {l : List α} {a : α}
    (h : l.Nodup) (ha : a ∉ l) : (l ++ [a]).Nodup := by
  rw [List.nodup_append]
  refine ⟨h, List.nodup_singleton a, ?_⟩
  intro x hx hxa
  rw [List.mem_singleton] at hxa
  subst hxa
  exact ha hx

/-- Wf is preserved by every operation whose environment precondition
holds. -/
lemma Wf_step (db : DB) (t : Int) (op : Op) (hwf : Wf db)
    (hok : okOp db op = true) : Wf (step db t op) := by
  obtain ⟨hb, hids, hcodes⟩ := hwf
  cases op with
  | create uid total code pid =>
      have hok' : 0 ≤ total ∧ ∀ c ∈ db.time_cards, c.activation_code ≠ code := by
        simp only [okOp, Bool.and_eq_true, decide_eq_true_eq, List.all_eq_true] at hok
        exact hok
      have hcards : (step db t (Op.create uid total code pid)).time_cards =
          db.time_cards ++ [(create_time_card db t uid total code pid).2] := rfl
      refine ⟨?_, ?_, ?_⟩
      · intro c hc
        rw [hcards] at hc
        rcases List.mem_append.mp hc with h | h
        · exact hb c h
        · rw [List.mem_singleton] at h
          subst h
          exact ⟨hok'.1, le_rfl⟩
      · unfold idsNodup
        rw [hcards, List.map_append, List.map_singleton]
        refine nodup_append_singleton hids ?_
        intro hmem
        obtain ⟨c, hc, hcid⟩ := List.mem_map.mp hmem
        have := card_id_lt_nextCardId db c hc
        simp only [create_time_card] at hcid
        omega
      · unfold codesNodup
        rw [hcards, List.map_append, List.map_singleton]
        refine nodup_append_singleton hcodes ?_
        intro hmem
        obtain ⟨c, hc, hcc⟩ := List.mem_map.mp hmem
        exact hok'.2 c hc hcc
  | activate code uid =>
      rcases activate_cards db t code uid with h | h
      · have hcards : (step db t (Op.activate code uid)).time_cards = db.time_cards := h
        refine ⟨?_, ?_, ?_⟩
        · rw [hcards]; exact hb
        · unfold idsNodup; rw [hcards]; exact hids
        · unfold codesNodup; rw [hcards]; exact hcodes
      · have hcards : (step db t (Op.activate code uid)).time_cards =
            db.time_cards.map (fun c => if c.activation_code = code then
              { c with user_id := uid, activated_at := some t,
                       status := CardStatus.active } else c) := h
        refine ⟨?_, ?_, ?_⟩
        · intro c hc
          rw [hcards] at hc
          obtain ⟨x, hx, rfl⟩ := List.mem_map.mp hc
          by_cases hcode : x.activation_code = code
          · rw [if_pos hcode]; exact hb x hx
          · rw [if_neg hcode]; exact hb x hx
        · unfold idsNodup
          rw [hcards, map_proj_eq _ _ (fun c => by by_cases h : c.activation_code = code <;> simp [h])]
          exact hids
        · unfold codesNodup
          rw [hcards, map_proj_eq _ _ (fun c => by by_cases h : c.activation_code = code <;> simp [h])]
          exact hcodes
  | deduct uid m =>
      have hev := (deduct_time_evolve db t uid m hids).2.2
      have hcards : (step db t (Op.deduct uid m)).time_cards =
          (deduct_time db t uid m).1.time_cards := rfl
      refine ⟨?_, ?_, ?_⟩
      · intro c hc
        rw [hcards] at hc
        rw [List.forall₂_iff_get] at hev
        obtain ⟨k, rfl⟩ := List.mem_iff_get.mp hc
        have hstep := hev.2 k.1 (by omega) k.2
        exact deductEvolve_wf hstep (hb _ (List.get_mem _ _ _))
      · unfold idsNodup
        rw [hcards, forall₂_proj_eq TimeCard.id (fun a b hr => deductEvolve_id hr) hev]
        exact hids
      · unfold codesNodup
        rw [hcards, forall₂_proj_eq TimeCard.activation_code (fun a b hr => deductEvolve_code hr) hev]
        exact hcodes
  | webhook pid uid amount =>
      have hcards : (step db t (Op.webhook pid uid amount)).time_cards =
          db.time_cards.map (fun c => if c.stripe_payment_intent_id = some pid then
            { c with status := CardStatus.active, activated_at := some t } else c) := rfl
      refine ⟨?_, ?_, ?_⟩
      · intro c hc
        rw [hcards] at hc
        obtain ⟨x, hx, rfl⟩ := List.mem_map.mp hc
        by_cases hp : x.stripe_payment_intent_id = some pid
        · rw [if_pos hp]; exact hb x hx
        · rw [if_neg hp]; exact hb x hx
      · unfold idsNodup
        rw [hcards, map_proj_eq _ _ (fun c => by by_cases h : c.stripe_payment_intent_id = some pid <;> simp [h])]
        exact hids
      · unfold codesNodup
        rw [hcards, map_proj_eq _ _ (fun c => by by_cases h : c.stripe_payment_intent_id = some pid <;> simp [h])]
        exact hcodes
  | startSession uid sid room =>
      exact ⟨hb, hids, hcodes⟩
  | endSession sid d =>
      rcases end_time_session_cards db t sid d with h | ⟨uid2, db1, hdb1, h⟩
      · have hcards : (step db t (Op.endSession sid d)).time_cards = db.time_cards := h
        refine ⟨?_, ?_, ?_⟩
        · rw [hcards]; exact hb
        · unfold idsNodup; rw [hcards]; exact hids
        · unfold codesNodup; rw [hcards]; exact hcodes
      · have hids1 : idsNodup db1 := by unfold idsNodup; rw [hdb1]; exact hids
        have hev := (deduct_time_evolve db1 t uid2 (max 1 (pyRoundDiv60 d)) hids1).2.2
        rw [hdb1] at hev
        have hcards : (step db t (Op.endSession sid d)).time_cards =
            (deduct_time db1 t uid2 (max 1 (pyRoundDiv60 d))).1.time_cards := h
        refine ⟨?_, ?_, ?_⟩
        · intro c hc
          rw [hcards] at hc
          rw [List.forall₂_iff_get] at hev
          obtain ⟨k, rfl⟩ := List.mem_iff_get.mp hc
          have hstep := hev.2 k.1 (by omega) k.2
          exact deductEvolve_wf hstep (hb _ (List.get_mem _ _ _))
        · unfold idsNodup
          rw [hcards, forall₂_proj_eq TimeCard.id (fun a b hr => deductEvolve_id hr) hev]
          exact hids
        · unfold codesNodup
          rw [hcards, forall₂_proj_eq TimeCard.activation_code (fun a b hr => deductEvolve_code hr) hev]
          exact hcodes

/-- remaining_minutes never increases across any single operation. -/
lemma cardRem_step_le (db : DB) (t : Int) (op : Op) (hids : idsNodup db) :
    ∀ (i : Nat) (r r' : Int), cardRem db i = some r →
      cardRem (step db t op) i = some r' → r' ≤ r := by
  intro i r r' hr hr'
  rw [cardRem_eq] at hr hr'
  cases op with
  | create uid total code pid =>
      have hcards : (step db t (Op.create uid total code pid)).time_cards =
          db.time_cards ++ [(create_time_card db t uid total code pid).2] := rfl
      rw [hcards] at hr'
      rw [cardRemList_append_of_some hr] at hr'
      exact le_of_eq (Option.some_inj.mp hr').symm
  | activate code uid =>
      rcases activate_cards db t code uid with h | h
      · have hcards : (step db t (Op.activate code uid)).time_cards = db.time_cards := h
        rw [hcards, hr] at hr'
        exact le_of_eq (Option.some_inj.mp hr').symm
      · have hcards : (step db t (Op.activate code uid)).time_cards =
            db.time_cards.map (fun c => if c.activation_code = code then
              { c with user_id := uid, activated_at := some t,
                       status := CardStatus.active } else c) := h
        rw [hcards, cardRemList_map _
          (fun c => by by_cases h : c.activation_code = code <;> simp [h])
          (fun c => by by_cases h : c.activation_code = code <;> simp [h]), hr] at hr'
        exact le_of_eq (Option.some_inj.mp hr').symm
  | deduct uid m =>
      have hev := (deduct_time_evolve db t uid m hids).2.2
      exact forall₂_cardRemList_le (fun a b hab => deductEvolve_id hab)
        (fun a b hab => deductEvolve_rem_le hab) hev i r r' hr hr'
  | webhook pid uid amount =>
      have hcards : (step db t (Op.webhook pid uid amount)).time_cards =
          db.time_cards.map (fun c => if c.stripe_payment_intent_id = some pid then
            { c with status := CardStatus.active, activated_at := some t } else c) := rfl
      rw [hcards, cardRemList_map _
        (fun c => by by_cases h : c.stripe_payment_intent_id = some pid <;> simp [h])
        (fun c => by by_cases h : c.stripe_payment_intent_id = some pid <;> simp [h]), hr] at hr'
      exact le_of_eq (Option.some_inj.mp hr').symm
  | startSession uid sid room =>
      have hcards : (step db t (Op.startSession uid sid room)).time_cards =
          db.time_cards := rfl
      rw [hcards, hr] at hr'
      exact le_of_eq (Option.some_inj.mp hr').symm
  | endSession sid d =>
      rcases end_time_session_cards db t sid d with h | ⟨uid2, db1, hdb1, h⟩
      · have hcards : (step db t (Op.endSession sid d)).time_cards = db.time_cards := h
        rw [hcards, hr] at hr'
        exact le_of_eq (Option.some_inj.mp hr').symm
      · have hids1 : idsNodup db1 := by unfold idsNodup; rw [hdb1]; exact hids
        have hev := (deduct_time_evolve db1 t uid2 (max 1 (pyRoundDiv60 d)) hids1).2.2
        rw [hdb1] at hev
        have hcards : (step db t (Op.endSession sid d)).time_cards =
            (deduct_time db1 t uid2 (max 1 (pyRoundDiv60 d))).1.time_cards := h
        rw [hcards] at hr'
        exact forall₂_cardRemList_le (fun a b hab => deductEvolve_id hab)
          (fun a b hab => deductEvolve_rem_le hab) hev i r r' hr hr'

/-- The freshly created card starts with remaining_minutes = total_minutes. -/
lemma create_cardRem (db : DB) (t : Int) (uid : Nat) (total : Int)
    (code : String) (pid : Option String) :
    cardRem (step db t (Op.create uid total code pid)) (nextCardId db) =
      some total := by
  have hne : ∀ x ∈ db.time_cards,
      x.id ≠ (create_time_card db t uid total code pid).2.id := by
    intro x hx
    have := card_id_lt_nextCardId db x hx
    simp only [create_time_card]
    omega
  have h := cardRemList_append_new hne
  simpa [create_time_card, cardRem_eq, step] using h

/-- Run a timed trace from an arbitrary starting state. -/
def runFrom (db : DB) (ops : List (Int × Op)) : DB :=
  ops.foldl (fun db p => step db p.1 p.2) db

lemma run_eq_runFrom (ops : List (Int × Op)) : run ops = runFrom emptyDB ops := rfl

lemma runFrom_append (db : DB) (l l' : List (Int × Op)) :
    runFrom db (l ++ l') = runFrom (runFrom db l) l' :=
  List.foldl_append _ _ _ _

lemma runFrom_concat (db : DB) (l : List (Int × Op)) (t : Int) (op : Op) :
    runFrom db (l ++ [(t, op)]) = step (runFrom db l) t op := by
  rw [runFrom_append]; rfl

lemma okOps_append {db : DB} {l l' : List (Int × Op)} :
    okOps db (l ++ l') = true ↔
      okOps db l = true ∧ okOps (runFrom db l) l' = true := by
  induction l generalizing db with
  | nil => simp [okOps, runFrom]
  | cons p l ih =>
      obtain ⟨t, op⟩ := p
      have h1 : okOps db (((t, op) :: l) ++ l') =
          (okOp db op && okOps (step db t op) (l ++ l')) := rfl
      have h2 : okOps db ((t, op) :: l) = (okOp db op && okOps (step db t op) l) := rfl
      have h3 : runFrom db ((t, op) :: l) = runFrom (step db t op) l := rfl
      rw [h1, h2, h3, Bool.and_eq_true, Bool.and_eq_true, ih, and_assoc]

lemma Wf_runFrom {db : DB} {ops : List (Int × Op)} (hwf : Wf db)
    (hok : okOps db ops = true) : Wf (runFrom db ops) := by
  induction ops generalizing db with
  | nil => exact hwf
  | cons p l ih =>
      obtain ⟨t, op⟩ := p
      simp only [okOps, Bool.and_eq_true] at hok
      exact ih (Wf_step db t op hwf hok.1) hok.2

/-! ### Claim theorems -/

/-- Fixture: one active, unexpired card of user 1 holding 10 of its 10
minutes. -/
def cardC1 : TimeCard :=
  ⟨1, 1, "AAAA-AAAA-AAAA", 10, 10, some 0, some 1000, 0, CardStatus.active, none⟩

def dbC1 : DB := ⟨[cardC1], [], []⟩

/-- C1: the claim says a deduction exceeding the eligible balance returns
false AND leaves every card unmodified.  The code has no pre-check: at this
input the eligible balance is 10 < 15, deduct_time does return false, but it
drains the card to 0 minutes with status used and commits — the zero-mutation
half of the claim is violated, while the spec repeatedly states atomicity as
a hard requirement, so the code is the bug. -/
theorem C1_deduct_not_atomic_on_failure :
    ((dbC1.time_cards.filter (deductEligible 0 1)).map
        TimeCard.remaining_minutes).sum = 10 ∧
    (10 : Int) < 15 ∧
    (deduct_time dbC1 0 1 15).2 = false ∧
    (deduct_time dbC1 0 1 15).1.time_cards.map
        (fun c => (c.remaining_minutes, c.status)) =
      [((0 : Int), CardStatus.used)] :=
  ⟨by decide, by decide, by decide, by decide⟩

/-- C2: bounded, monotone card balance.  Along any admissible trace of
operations from the empty database (admissible: each create carries a
non-negative package total and a fresh activation code, which the purchase
flow and generate_activation_code guarantee), after every operation every
card satisfies 0 <= remaining_minutes <= total_minutes, no card's
remaining_minutes ever increases across an operation, and a create sets the
new card's remaining_minutes to exactly its total_minutes. -/
theorem C2_balance_bounded_monotone (ops pre suf : List (Int × Op)) (t : Int)
    (op : Op) (hops : ops = pre ++ (t, op) :: suf)
    (hok : okOps emptyDB ops = true) :
    (∀ c ∈ (run (pre ++ [(t, op)])).time_cards,
        0 ≤ c.remaining_minutes ∧ c.remaining_minutes ≤ c.total_minutes) ∧
    (∀ (i : Nat) (r r' : Int), cardRem (run pre) i = some r →
        cardRem (run (pre ++ [(t, op)])) i = some r' → r' ≤ r) ∧
    (∀ (uid : Nat) (total : Int) (code : String) (pid : Option String),
        op = Op.create uid total code pid →
        cardRem (run (pre ++ [(t, op)])) (nextCardId (run pre)) = some total) := by
  subst hops
  have hsplit := okOps_append.mp hok
  have hokpre : okOps emptyDB pre = true := hsplit.1
  have hoktop : okOp (runFrom emptyDB pre) op = true := by
    have h2 : okOps (runFrom emptyDB pre) ((t, op) :: suf) =
        (okOp (runFrom emptyDB pre) op &&
          okOps (step (runFrom emptyDB pre) t op) suf) := rfl
    have := hsplit.2
    rw [h2, Bool.and_eq_true] at this
    exact this.1
  have hwfpre : Wf (run pre) := by
    rw [run_eq_runFrom]
    exact Wf_runFrom Wf_emptyDB hokpre
  have hconcat : run (pre ++ [(t, op)]) = step (run pre) t op := by
    rw [run_eq_runFrom, run_eq_runFrom]
    exact runFrom_concat emptyDB pre t op
  have hoktop' : okOp (run pre) op = true := by
    rw [run_eq_runFrom]; exact hoktop
  refine ⟨?_, ?_, ?_⟩
  · rw [hconcat]
    exact fun c hc => (Wf_step (run pre) t op hwfpre hoktop').1 c hc
  · intro i r r' hr hr'
    rw [hconcat] at hr'
    exact cardRem_step_le (run pre) t op hwfpre.2.1 i r r' hr hr'
  · intro uid total code pid hop
    subst hop
    rw [hconcat]
    exact create_cardRem (run pre) t uid total code pid

/-- Fixture trace for the C2 witness: a purchase, its activation, then a
partial deduction. -/
def preW : List (Int × Op) :=
  [(0, Op.create 1 10 "CARD-0001-AAAA" none), (1, Op.activate "CARD-0001-AAAA" 1)]

def opsW : List (Int × Op) := preW ++ (2, Op.deduct 1 4) :: []

theorem C2_balance_bounded_monotone_witness :
    okOps emptyDB opsW = true ∧
    ((∀ c ∈ (run (preW ++ [(2, Op.deduct 1 4)])).time_cards,
        0 ≤ c.remaining_minutes ∧ c.remaining_minutes ≤ c.total_minutes) ∧
    (∀ (i : Nat) (r r' : Int), cardRem (run preW) i = some r →
        cardRem (run (preW ++ [(2, Op.deduct 1 4)])) i = some r' → r' ≤ r) ∧
    (∀ (uid : Nat) (total : Int) (code : String) (pid : Option String),
        Op.deduct 1 4 = Op.create uid total code pid →
        cardRem (run (preW ++ [(2, Op.deduct 1 4)])) (nextCardId (run preW)) =
          some total)) :=
  ⟨by decide,
   C2_balance_bounded_monotone opsW preW [] 2 (Op.deduct 1 4) rfl (by decide)⟩

lemma cardKeyLE_trans (a b c : TimeCard) (hab : cardKeyLE a b = true)
    (hbc : cardKeyLE b c = true) : cardKeyLE a c = true := by
  unfold cardKeyLE at hab hbc ⊢
  rcases hA : a.expires_at with _ | x <;> rcases hB : b.expires_at with _ | y <;>
    rcases hC : c.expires_at with _ | z <;>
      simp only [hA, hB, hC] at hab hbc ⊢
  all_goals try exact Bool.noConfusion hab
  all_goals try exact Bool.noConfusion hbc
  all_goals simp only [decide_eq_true_eq, Bool.or_eq_true, Bool.and_eq_true] at hab hbc ⊢
  all_goals omega

lemma cardKeyLE_total (a b : TimeCard) :
    cardKeyLE a b = true ∨ cardKeyLE b a = true := by
  unfold cardKeyLE
  rcases hA : a.expires_at with _ | x <;> rcases hB : b.expires_at with _ | y <;>
    simp only [hA, hB]
  all_goals try exact Or.inl trivial
  all_goals try exact Or.inr trivial
  all_goals simp only [decide_eq_true_eq, Bool.or_eq_true, Bool.and_eq_true]
  all_goals omega

instance : IsTrans TimeCard cardLE :=
  ⟨fun a b c hab hbc => cardKeyLE_trans a b c hab hbc⟩

instance : IsTotal TimeCard cardLE :=
  ⟨fun a b => cardKeyLE_total a b⟩

/-- Fixture for the C3 counterexample: card 1 expires at time 100, card 2
has a NULL expiry; both belong to user 7 with 10 minutes remaining. -/
def cardC3A : TimeCard :=
  ⟨1, 7, "AAAA-0000-0001", 10, 10, some 0, some 100, 0, CardStatus.active, none⟩

def cardC3B : TimeCard :=
  ⟨2, 7, "AAAA-0000-0002", 10, 10, some 0, none, 1, CardStatus.active, none⟩

def dbC3n : DB := ⟨[cardC3A, cardC3B], [], []⟩

/-- C3 counterexample: the claim orders eligible cards by expires_at
ascending with NULLs LAST, which here would consume card 1 (expires 100)
first, leaving (id 1 at 5, id 2 at 10).  SQLite's ASC places NULLs FIRST, so
the code consumes the NULL-expiry card 2 first, leaving (id 1 at 10, id 2 at
5) — the claim's predicted result does not occur. -/
theorem C3_counterexample_nulls_last :
    (deduct_time dbC3n 0 7 5).1.time_cards.map
        (fun c => (c.id, c.remaining_minutes)) = [(1, 10), (2, 5)] ∧
    (deduct_time dbC3n 0 7 5).1.time_cards.map
        (fun c => (c.id, c.remaining_minutes)) ≠ [(1, 5), (2, 10)] :=
  ⟨by decide, by decide⟩

/-- Fixture matching the claim's concrete example: card A (id 1) expires in
1 day with 10 minutes, card B (id 2) expires in 30 days with 10 minutes. -/
def cardC3day : TimeCard :=
  ⟨1, 7, "AAAA-0000-0003", 10, 10, some 0, some 86400, 0, CardStatus.active, none⟩

def cardC3month : TimeCard :=
  ⟨2, 7, "AAAA-0000-0004", 10, 10, some 0, some 2592000, 0, CardStatus.active, none⟩

def dbC3 : DB := ⟨[cardC3day, cardC3month], [], []⟩

/-- C3 amended: deduct consumes the owner's eligible cards ordered by
(expires_at ascending with NULLs FIRST — SQLite ASC semantics — then
created_at ascending), subtracting from each in turn until the requested
minutes are exhausted: the processed list is sorted by that key and is a
permutation of the eligible cards, and on the claim's concrete example —
card A expiring in 1 day and card B in 30 days, 10 minutes each —
deduct(owner, 15) leaves A at 0 with status used and B at 5, as claimed. -/
theorem C3_fifo_by_expiration :
    (∀ (db : DB) (now : Int) (uid : Nat),
        List.Sorted cardLE (selCards db now uid) ∧
        (selCards db now uid).Perm
          (db.time_cards.filter (deductEligible now uid))) ∧
    (deduct_time dbC3 0 7 15).2 = true ∧
    (deduct_time dbC3 0 7 15).1.time_cards.map
        (fun c => (c.id, c.remaining_minutes, c.status)) =
      [(1, 0, CardStatus.used), (2, 5, CardStatus.active)] := by
  refine ⟨fun db now uid => ⟨List.sorted_insertionSort _ _, selCards_perm db now uid⟩,
    by decide, by decide⟩

lemma sealSessions_sealed (db : DB) (now : Int) (sid : String) (d cost : Int) :
    ∀ x ∈ (sealSessions db now sid d cost).time_sessions,
      ¬(x.session_id = sid ∧ x.status = SessionStatus.active) := by
  intro x hx
  obtain ⟨y, _, rfl⟩ := List.mem_map.mp hx
  by_cases h : y.session_id = sid
  · rw [if_pos h]
    rintro ⟨_, hst⟩
    exact SessionStatus.noConfusion hst
  · rw [if_neg h]
    rintro ⟨hsid, _⟩
    exact h hsid

lemma errorSessions_sealed (db : DB) (sid : String) :
    ∀ x ∈ (errorSessions db sid).time_sessions,
      ¬(x.session_id = sid ∧ x.status = SessionStatus.active) := by
  intro x hx
  obtain ⟨y, _, rfl⟩ := List.mem_map.mp hx
  by_cases h : y.session_id = sid
  · rw [if_pos h]
    rintro ⟨_, hst⟩
    exact SessionStatus.noConfusion hst
  · rw [if_neg h]
    rintro ⟨hsid, _⟩
    exact h hsid

/-- When end_time_session finds no active session with the id, it changes
nothing and returns none (a 404 at the endpoint). -/
lemma end_time_session_none (db : DB) (now : Int) (sid : String) (d : Int)
    (h : ∀ x ∈ db.time_sessions,
      ¬(x.session_id = sid ∧ x.status = SessionStatus.active)) :
    end_time_session db now sid d = (db, none) := by
  unfold end_time_session
  rw [List.find?_eq_none.mpr (fun x hx => by simpa using h x hx)]

/-- After any end_time_session call that returned a session, no session row
with that session_id is still active. -/
lemma end_some_sealed (db : DB) (now : Int) (sid : String) (d : Int) :
    (end_time_session db now sid d).2 = none ∨
    ∀ x ∈ (end_time_session db now sid d).1.time_sessions,
      ¬(x.session_id = sid ∧ x.status = SessionStatus.active) := by
  unfold end_time_session
  cases db.time_sessions.find?
      (fun s => decide (s.session_id = sid ∧ s.status = SessionStatus.active)) with
  | none => exact Or.inl rfl
  | some srow =>
      refine Or.inr ?_
      simp only
      by_cases hs : (deduct_time (sealSessions db now sid d (max 1 (pyRoundDiv60 d)))
          now srow.user_id (max 1 (pyRoundDiv60 d))).2
      · rw [if_pos hs]
        intro x hx
        exact sealSessions_sealed db now sid d _ x hx
      · rw [if_neg hs]
        intro x hx
        exact errorSessions_sealed _ sid x hx

/-- C4 amended: the session record is sealed — after end(session_id, d) has
completed once, a second end call with the same session_id fails by returning
none (surfaced as a 404 "Session not found", i.e. NotFoundError rather than a
distinct AlreadyEndedError) and changes nothing at all, so the balance is
deducted exactly once per session. -/
theorem C4_session_sealed (db db' : DB) (now now' : Int) (sid : String)
    (d d' : Int) (s : TimeSession)
    (h : end_time_session db now sid d = (db', some s)) :
    end_time_session db' now' sid d' = (db', none) := by
  rcases end_some_sealed db now sid d with hnone | hseal
  · rw [h] at hnone
    exact absurd hnone (by simp)
  · rw [h] at hseal
    exact end_time_session_none db' now' sid d' (by simpa using hseal)

/-- Fixture: an active session s1 of user 1, who holds one active card. -/
def cardC4 : TimeCard :=
  ⟨1, 1, "AAAA-0000-0005", 100, 100, some 0, some 100000, 0, CardStatus.active, none⟩

def sessC4 : TimeSession :=
  ⟨1, 1, "s1", "room", 0, none, none, none, SessionStatus.active⟩

def dbC4 : DB := ⟨[cardC4], [sessC4], []⟩

/-- The state after the first end("s1", 60) call on the fixture. -/
def dbC4e : DB := (end_time_session dbC4 60 "s1" 60).1

def sessC4e : TimeSession :=
  ⟨1, 1, "s1", "room", 0, some 60, some 60, some 1, SessionStatus.completed⟩

theorem C4_session_sealed_witness :
    end_time_session dbC4 60 "s1" 60 = (dbC4e, some sessC4e) ∧
    end_time_session dbC4e 120 "s1" 60 = (dbC4e, none) :=
  ⟨by decide, C4_session_sealed dbC4 dbC4e 60 120 "s1" 60 60 sessC4e (by decide)⟩

/-- C4 counterexample: the claim names AlreadyEndedError for the second end
call; the code has no such error — the repeated end returns none and the
endpoint surfaces 404 "Session not found" (NotFoundError), not
AlreadyEndedError, though it indeed performs no further deduction. -/
theorem C4_counterexample_error_kind :
    (endSessionResult dbC4e 120 "s1" 60).2 = Except.error LedgerError.notFound ∧
    (endSessionResult dbC4e 120 "s1" 60).2 ≠
      Except.error LedgerError.alreadyEnded ∧
    (endSessionResult dbC4e 120 "s1" 60).1 = dbC4e :=
  ⟨rfl, fun h => LedgerError.noConfusion (Except.error.inj h), rfl⟩

/-- Shape of a successful activation: the committed card table is the UPDATE
applied to every row carrying the code. -/
lemma activate_success_shape (db : DB) (now : Int) (code : String) (uid : Nat)
    (db2 : DB) (c : TimeCard)
    (h : activate_time_card db now code uid = (db2, some c)) :
    db2.time_cards = db.time_cards.map
      (fun x => if x.activation_code = code then
        { x with user_id := uid, activated_at := some now,
                 status := CardStatus.active } else x) := by
  unfold activate_time_card at h
  cases hf : db.time_cards.find?
      (fun x => decide (x.activation_code = code ∧ x.status = CardStatus.pending)) with
  | none =>
      rw [hf] at h
      exact absurd (congrArg Prod.snd h) (by simp)
  | some c0 =>
      rw [hf] at h
      have h1 := congrArg (fun p : DB × Option TimeCard => p.1.time_cards) h
      exact h1.symm

/-- C5 amended: activate(code, owner) is a no-op returning none (404
NotFoundError) when no pending card carries the code; on success it
transitions the card to active, sets activated_at, and binds the owner
UNCONDITIONALLY — it overwrites user_id even when an owner is already bound
(user_id is NOT NULL, so every card already has one); and once an activation
of a code has succeeded, every later activate call on that code fails and
changes nothing, so at most one activate per code ever succeeds. -/
theorem C5_activate_postcondition_single_use (db : DB) (now now' : Int)
    (code : String) (uid uid' : Nat) :
    ((∀ c ∈ db.time_cards,
        ¬(c.activation_code = code ∧ c.status = CardStatus.pending)) →
      activate_time_card db now code uid = (db, none)) ∧
    ((∃ c ∈ db.time_cards,
        c.activation_code = code ∧ c.status = CardStatus.pending) →
      (activate_time_card db now code uid).1.time_cards = db.time_cards.map
        (fun x => if x.activation_code = code then
          { x with user_id := uid, activated_at := some now,
                   status := CardStatus.active } else x) ∧
      (activate_time_card db now code uid).2.isSome = true) ∧
    (∀ (db2 : DB) (c : TimeCard),
      activate_time_card db now code uid = (db2, some c) →
      activate_time_card db2 now' code uid' = (db2, none)) := by
  refine ⟨?_, ?_, ?_⟩
  · intro h
    unfold activate_time_card
    rw [List.find?_eq_none.mpr (fun x hx => by simpa using h x hx)]
  · intro h
    obtain ⟨c0, hc0, hcode, hpend⟩ := h
    have hfs : (db.time_cards.find?
        (fun x => decide (x.activation_code = code ∧
          x.status = CardStatus.pending))).isSome := by
      rw [List.find?_isSome]
      exact ⟨c0, hc0, by simp [hcode, hpend]⟩
    cases hf : db.time_cards.find?
        (fun x => decide (x.activation_code = code ∧
          x.status = CardStatus.pending)) with
    | none => rw [hf] at hfs; simp at hfs
    | some c1 =>
        constructor
        · unfold activate_time_card
          rw [hf]
        · unfold activate_time_card
          rw [hf]
          simp only [get_time_card_by_code, Option.isSome_iff_exists]
          have hmem : (if c0.activation_code = code then
              { c0 with user_id := uid, activated_at := some now,
                        status := CardStatus.active } else c0) ∈
              db.time_cards.map (fun x => if x.activation_code = code then
                { x with user_id := uid, activated_at := some now,
                         status := CardStatus.active } else x) :=
            List.mem_map_of_mem _ hc0
          rw [if_pos hcode] at hmem
          have hfind2 : (List.find? (fun c => decide (c.activation_code = code))
              (db.time_cards.map (fun x => if x.activation_code = code then
                { x with user_id := uid, activated_at := some now,
                         status := CardStatus.active } else x))).isSome := by
            rw [List.find?_isSome]
            refine ⟨_, hmem, ?_⟩
            simpa using hcode
          rcases Option.isSome_iff_exists.mp hfind2 with ⟨w, hw⟩
          exact ⟨w, hw⟩
  · intro db2 c h
    have hshape := activate_success_shape db now code uid db2 c h
    unfold activate_time_card
    have hnone : db2.time_cards.find?
        (fun x => decide (x.activation_code = code ∧
          x.status = CardStatus.pending)) = none := by
      rw [List.find?_eq_none]
      intro x hx
      rw [hshape] at hx
      obtain ⟨y, _, rfl⟩ := List.mem_map.mp hx
      by_cases hy : y.activation_code = code
      · rw [if_pos hy]
        simp
      · rw [if_neg hy]
        simp [hy]
    rw [hnone]

/-- Fixture: a pending card whose owner field is already bound to user 1. -/
def cardC5 : TimeCard :=
  ⟨1, 1, "AAAA-AAAA-AAAA", 60, 60, none, some 1000, 0, CardStatus.pending, none⟩

def dbC5 : DB := ⟨[cardC5], [], []⟩

/-- C5 counterexample: the claim says activate binds owner only if the
card's owner is not already bound.  Here the pending card is already bound
to user 1, yet activate(code, 2) succeeds and rewrites user_id to 2. -/
theorem C5_counterexample_rebinds_owner :
    cardC5.user_id = 1 ∧
    (activate_time_card dbC5 50 "AAAA-AAAA-AAAA" 2).2.map TimeCard.user_id =
      some 2 ∧
    (activate_time_card dbC5 50 "AAAA-AAAA-AAAA" 2).1.time_cards.map
      TimeCard.user_id = [2] :=
  ⟨rfl, by decide, by decide⟩

/-- The state and card after activating the C5 fixture as user 2. -/
def dbC5a : DB := (activate_time_card dbC5 50 "AAAA-AAAA-AAAA" 2).1

def cardC5a : TimeCard :=
  ⟨1, 2, "AAAA-AAAA-AAAA", 60, 60, some 50, some 1000, 0, CardStatus.active, none⟩

theorem C5_activate_postcondition_single_use_witness :
    (activate_time_card dbC5 50 "AAAA-AAAA-AAAA" 2).2.isSome = true ∧
    activate_time_card dbC5a 60 "AAAA-AAAA-AAAA" 3 = (dbC5a, none) :=
  ⟨(((C5_activate_postcondition_single_use dbC5 50 60 "AAAA-AAAA-AAAA" 2 3).2.1)
      ⟨cardC5, by decide, rfl, rfl⟩).2,
   ((C5_activate_postcondition_single_use dbC5 50 60 "AAAA-AAAA-AAAA" 2 3).2.2)
      dbC5a cardC5a (by decide)⟩

/-- Fixture: an active session s6 of user 1, who holds one active card with
100 minutes. -/
def cardC6 : TimeCard :=
  ⟨1, 1, "AAAA-0000-0006", 100, 100, some 0, some 100000, 0, CardStatus.active, none⟩

def sessC6 : TimeSession :=
  ⟨1, 1, "s6", "room", 0, none, none, none, SessionStatus.active⟩

def dbC6 : DB := ⟨[cardC6], [sessC6], []⟩

/-- C6: minimum-billing rounding.  Every session that end_time_session seals
is billed cost_minutes = max(1, round(duration_seconds / 60)) with the
minimum billing hardcoded to 1 minute and round the Python round-half-even;
concretely a 10-second session bills exactly 1 minute (round(10/60) = 0,
lifted to the minimum) and a 125-second session bills exactly 2 minutes, both
as returned and as stored on the session row. -/
theorem C6_minimum_billing_rounding (db : DB) (now : Int) (sid : String)
    (d : Int) :
    (∀ (db' : DB) (s : TimeSession),
        end_time_session db now sid d = (db', some s) →
        s.cost_minutes = some (max 1 (pyRoundDiv60 d))) ∧
    pyRoundDiv60 10 = 0 ∧ max 1 (pyRoundDiv60 10) = 1 ∧
    pyRoundDiv60 125 = 2 ∧ max 1 (pyRoundDiv60 125) = 2 ∧
    (end_time_session dbC6 100 "s6" 10).2.map TimeSession.cost_minutes =
      some (some 1) ∧
    (end_time_session dbC6 100 "s6" 10).1.time_sessions.map
      TimeSession.cost_minutes = [some 1] ∧
    (end_time_session dbC6 100 "s6" 125).2.map TimeSession.cost_minutes =
      some (some 2) ∧
    (end_time_session dbC6 100 "s6" 125).1.time_sessions.map
      TimeSession.cost_minutes = [some 2] := by
  refine ⟨?_, by decide, by decide, by decide, by decide, by decide, by decide,
    by decide, by decide⟩
  intro db' s h
  unfold end_time_session at h
  cases hf : db.time_sessions.find?
      (fun x => decide (x.session_id = sid ∧ x.status = SessionStatus.active)) with
  | none =>
      rw [hf] at h
      exact absurd (congrArg Prod.snd h) (by simp)
  | some srow =>
      rw [hf] at h
      have h2 := congrArg Prod.snd h
      exact congrArg TimeSession.cost_minutes (Option.some.inj h2).symm

/-- The state and returned session of end("s6", 125) on the C6 fixture. -/
def dbC6b : DB := (end_time_session dbC6 100 "s6" 125).1

def sessC6b : TimeSession :=
  ⟨1, 1, "s6", "room", 0, some 100, some 125, some 2, SessionStatus.completed⟩

theorem C6_minimum_billing_rounding_witness :
    end_time_session dbC6 100 "s6" 125 = (dbC6b, some sessC6b) ∧
    sessC6b.cost_minutes = some (max 1 (pyRoundDiv60 125)) :=
  ⟨by decide,
   (C6_minimum_billing_rounding dbC6 100 "s6" 125).1 dbC6b sessC6b (by decide)⟩

/-- The one-directional status moves the spec allows: stay, pending to
active, or active to used. -/
def allowedTrans (s s' : CardStatus) : Prop :=
  s' = s ∨ (s = CardStatus.pending ∧ s' = CardStatus.active) ∨
    (s = CardStatus.active ∧ s' = CardStatus.used)

/-- Case analysis of activate_time_card carrying the guard information. -/
lemma activate_cases (db : DB) (now : Int) (code : String) (uid : Nat) :
    (activate_time_card db now code uid).1 = db ∨
    (∃ c0 ∈ db.time_cards,
      c0.activation_code = code ∧ c0.status = CardStatus.pending ∧
      (activate_time_card db now code uid).1.time_cards = db.time_cards.map
        (fun x => if x.activation_code = code then
          { x with user_id := uid, activated_at := some now,
                   status := CardStatus.active } else x)) := by
  unfold activate_time_card
  cases hf : db.time_cards.find?
      (fun x => decide (x.activation_code = code ∧ x.status = CardStatus.pending)) with
  | none => exact Or.inl rfl
  | some c0 =>
      have hmem := List.mem_of_find?_eq_some hf
      have hpred := List.find?_some hf
      simp only [decide_eq_true_eq] at hpred
      exact Or.inr ⟨c0, hmem, hpred.1, hpred.2, rfl⟩

lemma deductEvolve_status {now : Int} {uid : Nat} {a b : TimeCard}
    (h : DeductEvolve now uid a b) : allowedTrans a.status b.status := by
  rcases h with rfl | h
  · exact Or.inl rfl
  · have hact : a.status = CardStatus.active :=
      ((deductEligible_iff now uid a).mp h.1).2.1
    rcases h.2.2.2.2.2.2.2.2.2.2.2 with hb | hb
    · exact Or.inl (by rw [hb, hact])
    · exact Or.inr (Or.inr ⟨hact, hb⟩)

/-- C7 amended: under create, activate, deduct, session start/end, every
card's status only moves along pending -> active -> used (stay, pending to
active, or active to used; the expired and refunded states are never assigned
anywhere in the code) — but the payment-webhook activation is the exception
the claim misses: it sets every card matching the payment reference to
active with no guard on the current status, so it can move a used (or any)
card back to active. -/
theorem C7_status_transitions (db : DB) (t : Int) (op : Op) (hwf : Wf db)
    (hok : okOp db op = true) :
    ∀ (k : Nat) (c c' : TimeCard), db.time_cards[k]? = some c →
      (step db t op).time_cards[k]? = some c' →
      allowedTrans c.status c'.status ∨
        (∃ pid uid amount, op = Op.webhook pid uid amount ∧
          c'.status = CardStatus.active) := by
  intro k c c' hc hc'
  have hkmem : c ∈ db.time_cards := by
    obtain ⟨hk, hget⟩ := List.getElem?_eq_some.mp hc
    rw [← hget]
    exact List.getElem_mem _
  cases op with
  | create uid total code pid =>
      have hcards : (step db t (Op.create uid total code pid)).time_cards =
          db.time_cards ++ [(create_time_card db t uid total code pid).2] := rfl
      have hk : k < db.time_cards.length := (List.getElem?_eq_some.mp hc).1
      rw [hcards, List.getElem?_append, if_pos hk, hc] at hc'
      exact Or.inl (Or.inl (by rw [Option.some_inj.mp hc']))
  | activate code uid =>
      rcases activate_cases db t code uid with h | ⟨c0, hc0, hcode0, hpend0, h⟩
      · have hcards : (step db t (Op.activate code uid)).time_cards =
            db.time_cards := congrArg DB.time_cards h
        rw [hcards, hc] at hc'
        exact Or.inl (Or.inl (by rw [Option.some_inj.mp hc']))
      · have hcards : (step db t (Op.activate code uid)).time_cards =
            db.time_cards.map (fun x => if x.activation_code = code then
              { x with user_id := uid, activated_at := some t,
                       status := CardStatus.active } else x) := h
        rw [hcards, List.getElem?_map, hc] at hc'
        simp only [Option.map_some'] at hc'
        have hc'eq := Option.some_inj.mp hc'
        by_cases hcd : c.activation_code = code
        · rw [if_pos hcd] at hc'eq
          have hcc0 : c = c0 := by
            have hinj := List.inj_on_of_nodup_map hwf.2.2
            exact hinj hkmem hc0 (by rw [hcd, hcode0])
          refine Or.inl (Or.inr (Or.inl ⟨by rw [hcc0]; exact hpend0, ?_⟩))
          rw [← hc'eq]
        · rw [if_neg hcd] at hc'eq
          exact Or.inl (Or.inl (by rw [← hc'eq]))
  | deduct uid m =>
      have hev := (deduct_time_evolve db t uid m hwf.2.1).2.2
      exact Or.inl (deductEvolve_status (forall₂_getElem? hev k c c' hc hc'))
  | webhook pid uid amount =>
      have hcards : (step db t (Op.webhook pid uid amount)).time_cards =
          db.time_cards.map (fun x => if x.stripe_payment_intent_id = some pid then
            { x with status := CardStatus.active, activated_at := some t }
          else x) := rfl
      rw [hcards, List.getElem?_map, hc] at hc'
      simp only [Option.map_some'] at hc'
      have hc'eq := Option.some_inj.mp hc'
      by_cases hp : c.stripe_payment_intent_id = some pid
      · rw [if_pos hp] at hc'eq
        exact Or.inr ⟨pid, uid, amount, rfl, by rw [← hc'eq]⟩
      · rw [if_neg hp] at hc'eq
        exact Or.inl (Or.inl (by rw [← hc'eq]))
  | startSession uid sid room =>
      have hcards : (step db t (Op.startSession uid sid room)).time_cards =
          db.time_cards := rfl
      rw [hcards, hc] at hc'
      exact Or.inl (Or.inl (by rw [Option.some_inj.mp hc']))
  | endSession sid d =>
      rcases end_time_session_cards db t sid d with h | ⟨uid2, db1, hdb1, h⟩
      · have hcards : (step db t (Op.endSession sid d)).time_cards =
            db.time_cards := h
        rw [hcards, hc] at hc'
        exact Or.inl (Or.inl (by rw [Option.some_inj.mp hc']))
      · have hids1 : idsNodup db1 := by
          unfold idsNodup; rw [hdb1]; exact hwf.2.1
        have hev := (deduct_time_evolve db1 t uid2 (max 1 (pyRoundDiv60 d)) hids1).2.2
        rw [hdb1] at hev
        have hcards : (step db t (Op.endSession sid d)).time_cards =
            (deduct_time db1 t uid2 (max 1 (pyRoundDiv60 d))).1.time_cards := h
        rw [hcards] at hc'
        exact Or.inl (deductEvolve_status (forall₂_getElem? hev k c c' hc hc'))

instance (db : DB) : Decidable (idsNodup db) := by
  unfold idsNodup; infer_instance

instance (db : DB) : Decidable (codesNodup db) := by
  unfold codesNodup; infer_instance

instance (c : TimeCard) : Decidable (WfCard c) := by
  unfold WfCard; infer_instance

instance (db : DB) : Decidable (Wf db) := by
  unfold Wf; infer_instance

/-- Fixture trace: buy a card tagged with payment intent pi_7, activate it by
code, spend it down to 0 (status used). -/
def opsC7 : List (Int × Op) :=
  [(0, Op.create 1 10 "AAAA-0000-0007" (some "pi_7")),
   (1, Op.activate "AAAA-0000-0007" 1),
   (2, Op.deduct 1 10)]

def dbC7 : DB := run opsC7

/-- C7 counterexample: the claim says no operation ever transitions a card
out of the used state, but a (late or replayed) payment_intent.succeeded
webhook for pi_7 flips the used card straight back to active, because the
webhook's UPDATE has no status guard. -/
theorem C7_counterexample_webhook_reactivates_used :
    dbC7.time_cards.map TimeCard.status = [CardStatus.used] ∧
    (step dbC7 3 (Op.webhook "pi_7" 1 999)).time_cards.map TimeCard.status =
      [CardStatus.active] :=
  ⟨by decide, by decide⟩

theorem C7_status_transitions_witness :
    Wf dbC7 ∧ okOp dbC7 (Op.deduct 1 3) = true ∧
    (∀ (k : Nat) (c c' : TimeCard), dbC7.time_cards[k]? = some c →
      (step dbC7 4 (Op.deduct 1 3)).time_cards[k]? = some c' →
      allowedTrans c.status c'.status ∨
        (∃ pid uid amount, Op.deduct 1 3 = Op.webhook pid uid amount ∧
          c'.status = CardStatus.active)) :=
  ⟨by decide, by decide,
   C7_status_transitions dbC7 4 (Op.deduct 1 3) (by decide) (by decide)⟩

lemma filter_eraseIdx_of_not {l : List TimeCard} {k : Nat} {c : TimeCard}
    {p : TimeCard → Bool} (hc : l[k]? = some c) (hp : p c = false) :
    (l.eraseIdx k).filter p = l.filter p := by
  induction l generalizing k with
  | nil => simp at hc
  | cons a l ih =>
      cases k with
      | zero =>
          rw [List.getElem?_cons_zero, Option.some_inj] at hc
          subst hc
          show l.filter p = (a :: l).filter p
          rw [List.filter_cons, if_neg (by simp [hp])]
      | succ k =>
          rw [List.getElem?_cons_succ] at hc
          show (a :: l.eraseIdx k).filter p = (a :: l).filter p
          rw [List.filter_cons, List.filter_cons, ih hc]

/-- C8: expired cards are excluded.  A card with positive remaining minutes
whose expires_at lies in the past is not deduct-eligible, is never selected
by deduct_time, is left exactly unchanged by any deduct_time call, is not
balance-eligible, and contributes nothing to get_user_balance: removing its
row leaves the whole balance aggregate (total_minutes, active_cards,
next_expiration) unchanged. -/
theorem C8_expired_cards_excluded (db : DB) (now : Int) (uid : Nat)
    (c : TimeCard) (e : Int) (k : Nat) (hids : idsNodup db)
    (hk : db.time_cards[k]? = some c) (hrem : 0 < c.remaining_minutes)
    (hexp : c.expires_at = some e) (hpast : e < now) :
    deductEligible now uid c = false ∧
    c ∉ selCards db now uid ∧
    (∀ m : Int, (deduct_time db now uid m).1.time_cards[k]? = some c) ∧
    balanceEligible now uid c = false ∧
    get_user_balance db now uid =
      get_user_balance ⟨db.time_cards.eraseIdx k, db.time_sessions, db.payments⟩
        now uid := by
  have hexpOk : expiresOk now c = false := by
    unfold expiresOk
    rw [hexp]
    simp only [decide_eq_false_iff_not]
    omega
  have hded : deductEligible now uid c = false := by
    unfold deductEligible
    rw [hexpOk]
    simp
  have hbal : balanceEligible now uid c = false := by
    unfold balanceEligible
    rw [hexpOk]
    simp
  refine ⟨hded, ?_, ?_, hbal, ?_⟩
  · intro hmem
    have := (selCards_mem hmem).2
    rw [hded] at this
    exact Bool.noConfusion this
  · intro m
    have hev := (deduct_time_evolve db now uid m hids).2.2
    have hlen := hev.length_eq
    have hk' : k < (deduct_time db now uid m).1.time_cards.length := by
      rw [← hlen]
      exact (List.getElem?_eq_some.mp hk).1
    obtain ⟨c', hc'⟩ : ∃ x, (deduct_time db now uid m).1.time_cards[k]? = some x :=
      ⟨_, List.getElem?_eq_some.mpr ⟨hk', rfl⟩⟩
    rcases forall₂_getElem? hev k c c' hk hc' with rfl | hrel
    · exact hc'
    · rw [hded] at hrel
      exact Bool.noConfusion hrel.1
  · have hfe := filter_eraseIdx_of_not hk hbal
    unfold get_user_balance
    rw [hfe]

/-- Fixture: user 1 holds a live card (id 1) and an expired card (id 2,
expired at time 5, checked at now = 10) that still has 50 minutes on it. -/
def cardC8ok : TimeCard :=
  ⟨1, 1, "AAAA-0000-0009", 10, 10, some 0, some 1000, 0, CardStatus.active, none⟩

def cardC8 : TimeCard :=
  ⟨2, 1, "AAAA-0000-0008", 50, 50, some 0, some 5, 0, CardStatus.active, none⟩

def dbC8 : DB := ⟨[cardC8ok, cardC8], [], []⟩

theorem C8_expired_cards_excluded_witness :
    idsNodup dbC8 ∧ dbC8.time_cards[1]? = some cardC8 ∧
    (0 : Int) < cardC8.remaining_minutes ∧ cardC8.expires_at = some 5 ∧
    (5 : Int) < 10 ∧
    (deductEligible 10 1 cardC8 = false ∧
     cardC8 ∉ selCards dbC8 10 1 ∧
     (∀ m : Int, (deduct_time dbC8 10 1 m).1.time_cards[1]? = some cardC8) ∧
     balanceEligible 10 1 cardC8 = false ∧
     get_user_balance dbC8 10 1 =
       get_user_balance ⟨dbC8.time_cards.eraseIdx 1, dbC8.time_sessions,
         dbC8.payments⟩ 10 1) :=
  ⟨by decide, by decide, by decide, rfl, by decide,
   C8_expired_cards_excluded dbC8 10 1 cardC8 5 1 (by decide) (by decide)
     (by decide) rfl (by decide)⟩

/-- C9 amended: start_time_session performs no duplicate check at all — for
every state, even one already holding an active session with the same
session_id, it unconditionally INSERTs and returns a fresh session row with
status active and a null end_time, touching nothing else. -/
theorem C9_start_never_rejects_duplicates (db : DB) (now : Int) (uid : Nat)
    (sid room : String) :
    (start_time_session db now uid sid room).1.time_sessions =
      db.time_sessions ++ [(start_time_session db now uid sid room).2] ∧
    (start_time_session db now uid sid room).2.status = SessionStatus.active ∧
    (start_time_session db now uid sid room).2.end_time = none ∧
    (start_time_session db now uid sid room).2.session_id = sid ∧
    (start_time_session db now uid sid room).1.time_cards = db.time_cards :=
  ⟨rfl, rfl, rfl, rfl, rfl⟩

/-- Fixture: an active session s9 already exists. -/
def sessC9 : TimeSession :=
  ⟨1, 1, "s9", "room", 0, none, none, none, SessionStatus.active⟩

def dbC9 : DB := ⟨[], [sessC9], []⟩

/-- C9 counterexample: the claim requires start to fail with
DuplicateSessionError when an active session with the same session_id
exists; the code has no such check — starting "s9" again simply inserts a
second active row with the same session_id. -/
theorem C9_counterexample_duplicate_start_succeeds :
    (∃ x ∈ dbC9.time_sessions,
      x.session_id = "s9" ∧ x.status = SessionStatus.active) ∧
    (start_time_session dbC9 5 2 "s9" "other").1.time_sessions.map
        (fun x => (x.session_id, x.status)) =
      [("s9", SessionStatus.active), ("s9", SessionStatus.active)] :=
  ⟨⟨sessC9, by decide, rfl, rfl⟩, by decide⟩

/-- C10: deduct frame property.  Whatever deduct_time returns, the session
and payment tables are untouched, and each card either stays exactly as it
was or was deduct-eligible at the start of the call (owned by the caller,
active, unexpired, positive balance) and only its remaining_minutes (downward,
not below 0) and status (within active/used) changed; in particular every
card that was not eligible — other owners' cards, pending/used/expired
cards — is returned unchanged at its position. -/
theorem C10_deduct_frame (db : DB) (now : Int) (uid : Nat) (m : Int)
    (hids : idsNodup db) :
    (deduct_time db now uid m).1.time_sessions = db.time_sessions ∧
    (deduct_time db now uid m).1.payments = db.payments ∧
    List.Forall₂ (DeductEvolve now uid) db.time_cards
      (deduct_time db now uid m).1.time_cards ∧
    (∀ (k : Nat) (c c' : TimeCard), db.time_cards[k]? = some c →
      (deduct_time db now uid m).1.time_cards[k]? = some c' →
      deductEligible now uid c = false → c' = c) := by
  obtain ⟨hs, hp, hev⟩ := deduct_time_evolve db now uid m hids
  refine ⟨hs, hp, hev, ?_⟩
  intro k c c' hc hc' hfalse
  rcases forall₂_getElem? hev k c c' hc hc' with rfl | hrel
  · rfl
  · rw [hfalse] at hrel
    exact Bool.noConfusion hrel.1

/-- Fixture: user 1 owns an eligible card (id 1) and a pending card (id 3);
user 2 owns an eligible card (id 2); one active session exists. -/
def cardC10a : TimeCard :=
  ⟨1, 1, "AAAA-0000-0010", 10, 10, some 0, some 1000, 0, CardStatus.active, none⟩

def cardC10b : TimeCard :=
  ⟨2, 2, "AAAA-0000-0011", 10, 10, some 0, some 1000, 0, CardStatus.active, none⟩

def cardC10c : TimeCard :=
  ⟨3, 1, "AAAA-0000-0012", 10, 10, none, some 1000, 5, CardStatus.pending, none⟩

def sessC10 : TimeSession :=
  ⟨1, 1, "s10", "room", 0, none, none, none, SessionStatus.active⟩

def dbC10 : DB := ⟨[cardC10a, cardC10b, cardC10c], [sessC10], []⟩

theorem C10_deduct_frame_witness :
    idsNodup dbC10 ∧
    ((deduct_time dbC10 0 1 4).1.time_sessions = dbC10.time_sessions ∧
     (deduct_time dbC10 0 1 4).1.payments = dbC10.payments ∧
     List.Forall₂ (DeductEvolve 0 1) dbC10.time_cards
       (deduct_time dbC10 0 1 4).1.time_cards ∧
     (∀ (k : Nat) (c c' : TimeCard), dbC10.time_cards[k]? = some c →
       (deduct_time dbC10 0 1 4).1.time_cards[k]? = some c' →
       deductEligible 0 1 c = false → c' = c)) :=
  ⟨by decide, C10_deduct_frame dbC10 0 1 4 (by decide)⟩
